import Mathlib

/-!
Verification of the MySiteGen-Agent project orchestration logic.

This development gives a shallow embedding of the orchestration code in
`src/App.tsx` (the Build, Import, Tune, Publish workflows, cancellation and
the localStorage initializer) and of the retry wrapper in
`src/services/geminiService.ts` (both module variants), and settles the
frozen claims about them.

External collaborators (the generation service, the GitHub storage service,
`Math.random` id generation and the wall clock) are modelled as explicit
function parameters: the orchestration is deterministic given their
responses, which is exactly the scope of the specification.
-/

namespace MySiteGen

/-! ## JavaScript string primitives

The TypeScript source manipulates paths and messages with `split`,
`startsWith`, `endsWith`, `includes`, `substring`, `replace` and regex
matching.  These are embedded below as executable functions on `String`
(working on the underlying character lists). -/

/-- Boolean test that `p` is a leading segment of `l` (JS `startsWith` on
character lists). -/
def listIsPre : List Char → List Char → Bool
  | [], _ => true
  | _ :: _, [] => false
  | a :: as, b :: bs => a = b && listIsPre as bs

/-- Boolean test that `s` is a trailing segment of `l` (JS `endsWith` on
character lists). -/
def listIsSuf (s l : List Char) : Bool :=
  listIsPre s.reverse l.reverse

/-- Index of the first occurrence of `nee` inside `hay`, if any. -/
def findSubIdx (nee : List Char) : List Char → Option Nat
  | [] => if nee = [] then some 0 else none
  | c :: cs =>
    if listIsPre nee (c :: cs) then some 0
    else (findSubIdx nee cs).map (· + 1)

/-- JS `String.prototype.includes`. -/
def jsIncludes (s sub : String) : Bool :=
  (findSubIdx sub.data s.data).isSome

/-- JS `String.prototype.startsWith`. -/
def jsStartsWith (s pre : String) : Bool :=
  listIsPre pre.data s.data

/-- JS `String.prototype.endsWith`. -/
def jsEndsWith (s suf : String) : Bool :=
  listIsSuf suf.data s.data

/-- JS `String.prototype.substring(n)` (drop the first `n` characters). -/
def jsSubstringFrom (s : String) (n : Nat) : String :=
  ⟨s.data.drop n⟩

/-- Splitting a character list on a separator character, accumulator style
(JS `split` with a single-character separator). -/
def splitCharAux (sep : Char) : List Char → List Char → List (List Char)
  | [], acc => [acc.reverse]
  | c :: cs, acc =>
    if c = sep then acc.reverse :: splitCharAux sep cs []
    else splitCharAux sep cs (c :: acc)

/-- JS `String.prototype.split` with a single-character separator. -/
def jsSplit (sep : Char) (s : String) : List String :=
  (splitCharAux sep s.data []).map (fun l => ⟨l⟩)

/-- Joining with a separator character: the inverse of `splitCharAux`. -/
def joinSep (sep : Char) : List (List Char) → List Char
  | [] => []
  | [l] => l
  | l :: l2 :: ls => l ++ sep :: joinSep sep (l2 :: ls)

/-- Removal of the first occurrence of `pat` from a character list
(JS `replace(pat, '')`, which only replaces the first occurrence). -/
def replaceFirstChars (pat : List Char) : List Char → List Char
  | [] => []
  | c :: cs =>
    if listIsPre pat (c :: cs) then (c :: cs).drop pat.length
    else c :: replaceFirstChars pat cs

/-- JS `s.replace(pat, '')` for a plain-string pattern. -/
def jsReplaceFirst (s pat : String) : String :=
  ⟨replaceFirstChars pat.data s.data⟩

/-- Whitespace characters stripped by JS `trim` (the ASCII ones). -/
def jsIsSpace (c : Char) : Bool :=
  c = ' ' || c = '\t' || c = '\n' || c = '\r' ||
    c.toNat = 0xb || c.toNat = 0xc

/-- JS `String.prototype.trim`. -/
def jsTrim (s : String) : String :=
  ⟨(((s.data.dropWhile jsIsSpace).reverse.dropWhile jsIsSpace).reverse)⟩

/-! ## Data model (`src/types.ts`)

Direct transcription of the TypeScript interfaces.  Optional fields become
`Option`; the `status` union becomes an inductive type. -/

inductive SiteType
  | Corporate
  | Personal
deriving DecidableEq, Repr

structure Identity where
  siteName : String
  slug : String
  mission : String
  brandDescription : String
  themeColor : String
deriving DecidableEq, Repr

structure HubPage where
  id : String
  title : String
  slug : String
  description : String
  html : Option String
deriving DecidableEq, Repr

structure Article where
  id : String
  hubId : String
  title : String
  slug : String
  contentHtml : Option String
  createdAt : String
deriving DecidableEq, Repr

structure GitHubConfig where
  token : String
  repo : String
  branch : String
  path : String
deriving DecidableEq, Repr

inductive Status
  | idle
  | importing
  | analyzing_site
  | building_identity
  | generating_strategy
  | generating_hubs
  | ready
  | creating_repo
  | pushing_files
  | enabling_pages
  | tuning_design
deriving DecidableEq, Repr

structure ProjectState where
  opinion : String
  siteType : SiteType
  identity : Option Identity
  hubs : List HubPage
  articles : List Article
  gtmId : String
  adsenseId : String
  strategyRationale : Option String
  status : Status
  githubConfig : GitHubConfig
deriving DecidableEq, Repr

/-- A GitHub repository tree entry as consumed by `handleImport`
(`{path, type, url}`). -/
structure TreeNode where
  path : String
  type : String
  url : String
deriving DecidableEq, Repr

/-! ## RetryPolicy (`src/services/geminiService.ts`, both module variants)

`retryWithBackoff` wraps an async operation.  The operation is modelled as a
function from the attempt index to a result; an error is a record carrying
the fields the classifier inspects (`name`, `message`, `status`, `code`).
The wrapper returns the final result together with the number of times the
operation was actually invoked.  Backoff delays (`setTimeout`) have no
observable effect in this model and are dropped. -/

/-- The observable fields of a thrown JS error, as inspected by the retry
classifiers. -/
structure GemError where
  name : String
  message : String
  status : Option Nat
  code : Option Nat
deriving DecidableEq, Repr

/-- Classifier of variant 1 (lines 34-36):
`error.name === 'TypeError' || error.message?.includes('fetch')`. -/
def isNetworkError1 (e : GemError) : Bool :=
  e.name == "TypeError" || jsIncludes e.message "fetch"

/-- Classifier of variant 1 (line 35):
`error.status === 429 || error.message?.includes('429')`. -/
def isRateLimit1 (e : GemError) : Bool :=
  e.status == some 429 || jsIncludes e.message "429"

/-- Variant 1 (line 36): retryable when network, rate-limit or overloaded. -/
def isRetryable1 (e : GemError) : Bool :=
  isNetworkError1 e || isRateLimit1 e || jsIncludes e.message "overloaded"

/-- Classifier of variant 2 (lines 328-334). -/
def isNetworkError2 (e : GemError) : Bool :=
  e.name == "TypeError" ||
    (jsIncludes e.message "Failed to fetch" ||
      jsIncludes e.message "NetworkError" ||
      jsIncludes e.message "Network request failed")

/-- Classifier of variant 2 (lines 336-341). -/
def isRateLimit2 (e : GemError) : Bool :=
  e.status == some 429 || e.code == some 429 ||
    jsIncludes e.message "429" || jsIncludes e.message "quota" ||
    jsIncludes e.message "RESOURCE_EXHAUSTED"

/-- Variant 2 (line 344): retryable when network, rate-limit or overloaded. -/
def isRetryable2 (e : GemError) : Bool :=
  isNetworkError2 e || isRateLimit2 e || jsIncludes e.message "overloaded"

/-- Error results of the retry wrapper. -/
inductive RErr
  /-- Thrown before any attempt when the configured API key is empty
  (lines 21-23 and 317-319). -/
  | apiKeyMissing
  /-- Variant 1 `AbortError` (cancellation token observed set). -/
  | aborted
  /-- The wrapped operation's own error, rethrown unchanged. -/
  | fromOp (e : GemError)
  /-- Variant 2's enhanced final network-error message (line 349). -/
  | networkFinal
  /-- Variant 2's enhanced final rate-limit message (line 352). -/
  | rateLimitFinal
  /-- The `throw new Error(...)` after the loop, reachable only when
  `maxRetries = 0`. -/
  | budgetExhausted
deriving DecidableEq, Repr

/-- Per-iteration loop of variant 1 (lines 26-42).  `fuel` is the number of
remaining iterations (initially `maxRetries`), `i` the current attempt
index; `i = maxRetries - 1` in the source corresponds to `fuel = 1` here.
The cancellation token is modelled by its observed value before the attempt
(`preAbort i`) and after a failed attempt (`postAbort i`).  Returns the
result and the number of operation invocations performed. -/
def retryLoop1 {α : Type} (preAbort postAbort : Nat → Bool)
    (op : Nat → Except GemError α) : Nat → Nat → Except RErr α × Nat
  | 0, _ => (.error .budgetExhausted, 0)
  | fuel + 1, i =>
    if preAbort i then (.error .aborted, 0)
    else
      match op i with
      | .ok v => (.ok v, 1)
      | .error e =>
        if postAbort i then (.error .aborted, 1)
        else if !(isRetryable1 e) || fuel == 0 then (.error (.fromOp e), 1)
        else
          let r := retryLoop1 preAbort postAbort op fuel (i + 1)
          (r.1, r.2 + 1)

/-- Variant 1 of `retryWithBackoff` (lines 15-44).  `apiKey` is the
module-level `(process.env.API_KEY || "").trim()`. -/
def retryWithBackoff1 {α : Type} (apiKey : String)
    (preAbort postAbort : Nat → Bool) (op : Nat → Except GemError α)
    (maxRetries : Nat) : Except RErr α × Nat :=
  if apiKey = "" then (.error .apiKeyMissing, 0)
  else retryLoop1 preAbort postAbort op maxRetries 0

/-- Variant 2's rethrow at the final/fatal attempt (lines 346-355): network
and rate-limit errors are replaced by enhanced messages, everything else is
rethrown unchanged. -/
def rethrow2 (e : GemError) : RErr :=
  if isNetworkError2 e then .networkFinal
  else if isRateLimit2 e then .rateLimitFinal
  else .fromOp e

/-- Per-iteration loop of variant 2 (lines 322-361); no cancellation
token. -/
def retryLoop2 {α : Type} (op : Nat → Except GemError α) :
    Nat → Nat → Except RErr α × Nat
  | 0, _ => (.error .budgetExhausted, 0)
  | fuel + 1, i =>
    match op i with
    | .ok v => (.ok v, 1)
    | .error e =>
      if !(isRetryable2 e) || fuel == 0 then (.error (rethrow2 e), 1)
      else
        let r := retryLoop2 op fuel (i + 1)
        (r.1, r.2 + 1)

/-- Variant 2 of `retryWithBackoff` (lines 312-363). -/
def retryWithBackoff2 {α : Type} (apiKey : String)
    (op : Nat → Except GemError α) (maxRetries : Nat) :
    Except RErr α × Nat :=
  if apiKey = "" then (.error .apiKeyMissing, 0)
  else retryLoop2 op maxRetries 0

/-- The module-level API key (line 5 / line 308):
`(process.env.API_KEY || "").trim()`. -/
def mkApiKey (env : Option String) : String :=
  jsTrim (env.getD "")

/-! ## Title extraction (`handleImport`, lines 238-239 and 265-266)

`content.match(/<title>(.*?)<\/title>/i)` followed by
`titleMatch[1].split(/[|-]/)[0].trim()` with a fallback.  The regex scan is
embedded directly: scan for a case-insensitive `<title>`, lazily take the
shortest gap of dot-matching characters (everything except line
terminators) up to a case-insensitive `</title>`, otherwise resume at the
next start position. -/

/-- Case-insensitive character equality, as used by the `/i` regex flag. -/
def ciEq (a b : Char) : Bool :=
  a.toLower = b.toLower

/-- Case-insensitive test that `pat` matches at the head of `l`. -/
def ciStarts : List Char → List Char → Bool
  | [], _ => true
  | _ :: _, [] => false
  | p :: ps, c :: cs => ciEq p c && ciStarts ps cs

/-- Characters NOT matched by the regex `.` (JS line terminators). -/
def isLineTerm (c : Char) : Bool :=
  c = '\n' || c = '\r' || c.toNat = 0x2028 || c.toNat = 0x2029

/-- Characters strictly before the first case-insensitive occurrence of
`</title>`, if one occurs. -/
def gapToClose : List Char → Option (List Char)
  | [] => none
  | c :: rest =>
    if ciStarts "</title>".data (c :: rest) then some []
    else (gapToClose rest).map (fun g => c :: g)

/-- The regex scan for `/<title>(.*?)<\/title>/i`: returns the captured
group of the first successful match. -/
def titleScan : List Char → Option (List Char)
  | [] => none
  | c :: rest =>
    if ciStarts "<title>".data (c :: rest) then
      match gapToClose ((c :: rest).drop "<title>".data.length) with
      | some g => if g.any isLineTerm then titleScan rest else some g
      | none => titleScan rest
    else titleScan rest

/-- `content.match(/<title>(.*?)<\/title>/i)`, capture group 1. -/
def extractTitle (content : String) : Option String :=
  (titleScan content.data).map (fun g => ⟨g⟩)

/-- `titleMatch ? titleMatch[1].split(/[|-]/)[0].trim() : fallback`. -/
def titleFromContent (content fallback : String) : String :=
  match extractTitle content with
  | some t => jsTrim ⟨t.data.takeWhile (fun c => !(c = '|' || c = '-'))⟩
  | none => fallback

/-! ## Import Reconciler (`handleImport`, `src/App.tsx` lines 168-306)

The workflow is embedded as a pure function of its inputs and the external
services' responses: the repository's default branch, the file tree, the
file-content fetcher (keyed by a node's `url`), the generation service's
identity analysis (a function of the index file's content), the random-id
supply (`Math.random().toString(36).substr(2, 9)` becomes an injected
`idGen : Nat → String` indexed by draw order) and the clock value used for
`createdAt`.  The run is the cancellation-free one (the token is never
set); cancellation is handled separately by `handleCancelProcessModel`. -/

/-- The external calls a workflow can dispatch, in dispatch order. -/
inductive ExtCall
  | fetchRepoDetails
  | fetchRepoStructure
  | fetchFile (url : String)
  | analyzeIdentity
  | genIdentity
  | genStrategy
  | genHtml (slug : String)
  | genIndexHtml
  | createRepo
  | genReadme
  | pushFiles
  | enablePages
  | tuneCall
deriving DecidableEq, Repr

inductive ImportOutcome
  /-- Empty repo/token: alert and early return, before any mutation. -/
  | rejectedInput
  /-- `throw new Error("... index.html ...")` (line 198), caught at the
  workflow boundary: status reverts to `idle`. -/
  | noIndexError
  | completed
deriving DecidableEq, Repr

structure ImportResult where
  calls : List ExtCall
  final : ProjectState
  outcome : ImportOutcome
deriving DecidableEq, Repr

/-- Line 194: the fixed candidate list for the root index file. -/
def possibleIndexPaths : List String :=
  ["index.html", "docs/index.html", "public/index.html", "site/index.html"]

/-- Line 195: `tree.find(node => possibleIndexPaths.includes(node.path))` —
the FIRST node in tree order whose path is any candidate. -/
def findIndexNode (tree : List TreeNode) : Option TreeNode :=
  tree.find? (fun n => possibleIndexPaths.contains n.path)

/-- Line 201:
`indexNode.path.includes('/') ? indexNode.path.split('/')[0] : ''`. -/
def rootDirOfIndexPath (p : String) : String :=
  if jsIncludes p "/" then (jsSplit '/' p).getD 0 "" else ""

/-- The root directory the import run derives from the given tree (empty
when no index node exists, in which case the run fails anyway). -/
def rootDirOf (tree : List TreeNode) : String :=
  match findIndexNode tree with
  | some n => rootDirOfIndexPath n.path
  | none => ""

/-- Line 227: `if (rootDir && !node.path.startsWith(rootDir + '/'))`. -/
def underRoot (rootDir : String) (p : String) : Bool :=
  rootDir == "" || jsStartsWith p (rootDir ++ "/")

/-- Line 229: the prefix-stripped relative path. -/
def relPathOf (rootDir : String) (p : String) : String :=
  if rootDir = "" then p else jsSubstringFrom p (rootDir.data.length + 1)

/-- The `continue`-chain of the first import loop (lines 226-235): returns
the section slug (`parts[0]`) when the node is classified as a section
(`<segment>/index.html` relative to the root directory), otherwise
`none`. -/
def secSlug (rootDir : String) (n : TreeNode) : Option String :=
  if n.type = "blob" ∧ jsEndsWith n.path ".html" = true ∧
      underRoot rootDir n.path = true then
    let rel := relPathOf rootDir n.path
    if rel = "index.html" then none
    else
      let parts := jsSplit '/' rel
      if parts.length = 2 ∧ parts.getD 1 "" = "index.html" then
        some (parts.getD 0 "")
      else none
  else none

/-- The `continue`-chain of the second import loop (lines 254-260): returns
`(parts[0], parts[1])` when the node is a candidate article
(`<segment>/<file>.html` with `<file> ≠ index`). -/
def artSeg (rootDir : String) (n : TreeNode) : Option (String × String) :=
  if n.type = "blob" ∧ jsEndsWith n.path ".html" = true ∧
      underRoot rootDir n.path = true then
    let parts := jsSplit '/' (relPathOf rootDir n.path)
    if parts.length = 2 ∧ parts.getD 1 "" ≠ "index.html" then
      some (parts.getD 0 "", parts.getD 1 "")
    else none
  else none

/-- First import loop (lines 224-249): builds the section hubs in tree
order, threading the id draw counter, and records the content fetches. -/
def hubLoop (fetch : String → String) (idGen : Nat → String)
    (rootDir : String) : List TreeNode → Nat →
    List HubPage × List ExtCall × Nat
  | [], k => ([], [], k)
  | n :: rest, k =>
    match secSlug rootDir n with
    | some slg =>
      let content := fetch n.url
      let title := titleFromContent content slg
      let hub : HubPage :=
        { id := idGen k, title := title, slug := slg,
          description := "Imported Hub", html := some content }
      let r := hubLoop fetch idGen rootDir rest (k + 1)
      (hub :: r.1, .fetchFile n.url :: r.2.1, r.2.2)
    | none => hubLoop fetch idGen rootDir rest k

/-- Second import loop (lines 252-278): builds the articles, attributing
each to the first hub whose slug equals its first path segment and skipping
entries with no matching hub. -/
def articleLoop (hubs : List HubPage) (fetch : String → String)
    (idGen : Nat → String) (now rootDir : String) : List TreeNode → Nat →
    List Article × List ExtCall × Nat
  | [], k => ([], [], k)
  | n :: rest, k =>
    match artSeg rootDir n with
    | some seg =>
      match hubs.find? (fun h => h.slug == seg.1) with
      | some parentHub =>
        let content := fetch n.url
        let slug := jsReplaceFirst seg.2 ".html"
        let title := titleFromContent content slug
        let art : Article :=
          { id := idGen k, hubId := parentHub.id, title := title,
            slug := slug, contentHtml := some content, createdAt := now }
        let r := articleLoop hubs fetch idGen now rootDir rest (k + 1)
        (art :: r.1, .fetchFile n.url :: r.2.1, r.2.2)
      | none => articleLoop hubs fetch idGen now rootDir rest k
    | none => articleLoop hubs fetch idGen now rootDir rest k

/-- The home hub pushed by Import (lines 214-220); its `html` is the index
file's content. -/
def importHomeHub (indexContent : String) : HubPage :=
  { id := "home", title := "ホーム", slug := "index",
    description := "メインエントランス", html := some indexContent }

/-- `handleImport` (lines 168-306), cancellation-free run. -/
def importModel (importRepo importToken defaultBranch : String)
    (tree : List TreeNode) (fetch : String → String)
    (identityOf : String → Identity) (idGen : Nat → String) (now : String)
    (s : ProjectState) : ImportResult :=
  let rawRepo := jsTrim importRepo
  let cleanToken := jsTrim importToken
  if rawRepo = "" ∨ cleanToken = "" then
    { calls := [], final := s, outcome := .rejectedInput }
  else
    let db := if defaultBranch = "" then "main" else defaultBranch
    match findIndexNode tree with
    | none =>
      { calls := [.fetchRepoDetails, .fetchRepoStructure],
        final := { s with status := .idle }, outcome := .noIndexError }
    | some indexNode =>
      let rootDir := rootDirOfIndexPath indexNode.path
      let indexContent := fetch indexNode.url
      let identity := identityOf indexContent
      let hubs := importHomeHub indexContent ::
        (hubLoop fetch idGen rootDir tree 0).1
      let secsOut := hubLoop fetch idGen rootDir tree 0
      let artsOut := articleLoop hubs fetch idGen now rootDir tree secsOut.2.2
      { calls := [.fetchRepoDetails, .fetchRepoStructure,
          .fetchFile indexNode.url, .analyzeIdentity] ++
          secsOut.2.1 ++ artsOut.2.1,
        final := { s with
          identity := some identity,
          hubs := hubs,
          articles := artsOut.1,
          status := .ready,
          githubConfig :=
            { token := cleanToken, repo := rawRepo, branch := db,
              path := rootDir },
          opinion := identity.mission },
        outcome := .completed }

/-! ## Build workflow (`handleInitialBuild`, `src/App.tsx` lines 308-363)

The generation service's responses are parameters: the derived Identity,
the strategy (stub hubs plus rationale), a per-stub markup response, and
the home-page markup response.  The model records every state committed by
`updateState`, the final state and whether a failure alert was shown. -/

structure BuildResult where
  /-- All states committed through `updateState`, in order. -/
  trace : List ProjectState
  final : ProjectState
  /-- `true` when the `catch` block ran (failure alert shown). -/
  failed : Bool
deriving DecidableEq, Repr

/-- The per-section loop (lines 336-344): markup generation for each stub
hub in order, stopping at the first service error. -/
def mkHtmlHubs (htmlFor : HubPage → Except GemError String) :
    List HubPage → Except GemError (List HubPage)
  | [] => .ok []
  | h :: t =>
    match htmlFor h with
    | .error e => .error e
    | .ok s =>
      match mkHtmlHubs htmlFor t with
      | .error e => .error e
      | .ok rest => .ok ({ h with html := some s } :: rest)

/-- The home hub built at line 352. -/
def buildHomeHub (indexHtml : String) : HubPage :=
  { id := "home", title := "ホーム", slug := "index",
    description := "メインエントランス", html := some indexHtml }

/-- Build's first committed state (line 311): status only. -/
def buildCommit1 (s : ProjectState) : ProjectState :=
  { s with status := Status.building_identity }

/-- Build's second committed state (line 322): Identity is committed
mid-workflow, before the strategy exists. -/
def buildCommit2 (s : ProjectState) (idt : Identity) : ProjectState :=
  { buildCommit1 s with
    identity := some idt
    status := Status.generating_strategy }

/-- Build's third committed state (line 333): the strategy's STUB hubs are
committed mid-workflow, before any markup exists. -/
def buildCommit3 (s : ProjectState) (idt : Identity) (stubs : List HubPage)
    (rationale : String) : ProjectState :=
  { buildCommit2 s idt with
    hubs := stubs
    strategyRationale := some rationale
    status := Status.generating_hubs }

/-- `handleInitialBuild` (lines 308-363). -/
def buildModel (s : ProjectState) (identityRes : Except GemError Identity)
    (strategyRes : Except GemError (List HubPage × String))
    (htmlFor : HubPage → Except GemError String)
    (indexHtmlRes : Except GemError String) : BuildResult :=
  let c1 := buildCommit1 s
  match identityRes with
  | .error _ =>
    { trace := [c1, { c1 with status := .idle }],
      final := { c1 with status := .idle }, failed := true }
  | .ok idt =>
    let c2 := buildCommit2 s idt
    match strategyRes with
    | .error _ =>
      { trace := [c1, c2, { c2 with status := .idle }],
        final := { c2 with status := .idle }, failed := true }
    | .ok sr =>
      let c3 := buildCommit3 s idt sr.1 sr.2
      match mkHtmlHubs htmlFor sr.1 with
      | .error _ =>
        { trace := [c1, c2, c3, { c3 with status := .idle }],
          final := { c3 with status := .idle }, failed := true }
      | .ok updatedHubs =>
        match indexHtmlRes with
        | .error _ =>
          { trace := [c1, c2, c3, { c3 with status := .idle }],
            final := { c3 with status := .idle }, failed := true }
        | .ok indexHtml =>
          let fin := { c3 with
            hubs := buildHomeHub indexHtml :: updatedHubs,
            status := Status.ready }
          { trace := [c1, c2, c3, fin], final := fin, failed := false }

/-! ## Tune workflow (`handleTuneDesign`, `src/App.tsx` lines 430-496)

Single-target tuning.  The tuning service is a parameter receiving the
current markup and the optional exemplar markup; the model also reports the
arguments of the dispatched tuning call, if any. -/

structure TuneResult where
  final : ProjectState
  /-- `(currentHtml, referenceHtml, instruction)` of the dispatched
  `tunePageDesignAgent` call, when one was dispatched. -/
  call : Option (String × Option String × String)
  /-- `true` when the workflow ended in a guard rejection or the `catch`
  block (alert shown). -/
  failed : Bool
deriving DecidableEq, Repr

/-- JS `a || b` on optional strings (empty string is falsy), as in
`targetHub?.html || targetArticle?.contentHtml` (line 458). -/
def jsOrStr : Option String → Option String → Option String
  | some a, b => if a = "" then b else some a
  | none, b => b

/-- JS truthiness of an optional string. -/
def strTruthy : Option String → Bool
  | some a => a != ""
  | none => false

/-- `handleTuneDesign` (lines 430-496). -/
def tuneModel (s : ProjectState) (targetId instruction : String)
    (tuneRes : String → Option String → Except GemError String) :
    TuneResult :=
  if targetId = "" ∨ s.identity.isNone then
    { final := s, call := none, failed := true }
  else if jsTrim instruction = "" then
    { final := s, call := none, failed := true }
  else
    let targetHub := s.hubs.find? (fun h => h.id == targetId)
    let targetArticle := s.articles.find? (fun a => a.id == targetId)
    let currentHtml :=
      jsOrStr (targetHub.bind (fun h => h.html))
        (targetArticle.bind (fun a => a.contentHtml))
    if strTruthy currentHtml = false then
      -- line 460 throw; catch alert; `finally`-adjacent cleanup sets ready
      { final := { s with status := Status.ready }, call := none,
        failed := true }
    else
      let cur := currentHtml.getD ""
      let homePage := s.hubs.find? (fun h => h.slug == "index")
      let ref0 := homePage.bind (fun h => h.html)
      let ref :=
        match targetHub with
        | some th => if th.slug = "index" then none else ref0
        | none => ref0
      match tuneRes cur ref with
      | .error _ =>
        { final := { s with status := Status.ready },
          call := some (cur, ref, instruction), failed := true }
      | .ok newHtml =>
        match targetHub with
        | some th =>
          { final := { s with
              hubs := s.hubs.map (fun h2 =>
                if h2.id = th.id then { h2 with html := some newHtml }
                else h2),
              status := Status.ready },
            call := some (cur, ref, instruction), failed := false }
        | none =>
          match targetArticle with
          | some ta =>
            { final := { s with
                articles := s.articles.map (fun a2 =>
                  if a2.id = ta.id then
                    { a2 with contentHtml := some newHtml }
                  else a2),
                status := Status.ready },
              call := some (cur, ref, instruction), failed := false }
          | none =>
            { final := { s with status := Status.ready },
              call := some (cur, ref, instruction), failed := false }

/-! ## Publish workflow (`handleCreateAndPublish`, lines 498-541) -/

structure PublishResult where
  calls : List ExtCall
  final : ProjectState
  failed : Bool
deriving DecidableEq, Repr

/-- `handleCreateAndPublish` (lines 498-541), cancellation-free run. -/
def publishModel (s : ProjectState) (createRes : Except GemError Unit)
    (readmeRes : Except GemError String) (pushRes : Except GemError Unit)
    (enableRes : Except GemError Unit) : PublishResult :=
  if s.githubConfig.token = "" ∨ s.githubConfig.repo = "" then
    { calls := [], final := s, failed := true }
  else
    match createRes with
    | .error _ =>
      { calls := [.createRepo], final := { s with status := .ready },
        failed := true }
    | .ok _ =>
      match readmeRes with
      | .error _ =>
        { calls := [.createRepo, .genReadme],
          final := { s with status := .ready }, failed := true }
      | .ok _ =>
        match pushRes with
        | .error _ =>
          { calls := [.createRepo, .genReadme, .pushFiles],
            final := { s with status := .ready }, failed := true }
        | .ok _ =>
          match enableRes with
          | .error _ =>
            { calls := [.createRepo, .genReadme, .pushFiles, .enablePages],
              final := { s with status := .ready }, failed := true }
          | .ok _ =>
            { calls := [.createRepo, .genReadme, .pushFiles, .enablePages],
              final := { s with status := .ready }, failed := false }

/-! ## Cancellation (`handleCancelProcess`, lines 154-166) and load
(`useState` initializer, lines 24-37) -/

/-- The orchestration-level state: the project plus the abort-controller
slot (`abortControllerRef`); `some aborted` is a live controller. -/
structure AppState where
  proj : ProjectState
  abortCtrl : Option Bool
deriving DecidableEq, Repr

/-- Kinds of user-facing alerts. -/
inductive AlertKind
  | info
  | failure
deriving DecidableEq, Repr

/-- `handleCancelProcess` (lines 154-166): abort and null the controller,
set status `idle` unconditionally, show the informational
"処理を中断しました" alert. -/
def handleCancelProcessModel (st : AppState) : AppState × AlertKind :=
  ({ proj := { st.proj with status := Status.idle }, abortCtrl := none },
    .info)

/-- The default empty project returned by the `useState` initializer
(lines 27-36). -/
def defaultProject : ProjectState :=
  { opinion := "技術的人道主義：テクノロジーは人間の精神を代替するものではなく、奉仕するものであるべきだ。",
    siteType := .Corporate,
    identity := none,
    hubs := [],
    articles := [],
    gtmId := "",
    adsenseId := "",
    strategyRationale := none,
    status := .idle,
    githubConfig := { token := "", repo := "", branch := "main",
                      path := "docs" } }

/-- The `useState` initializer (lines 24-37):
`const saved = localStorage.getItem(STORAGE_KEY); if (saved) return
JSON.parse(saved); return {...defaults}`.  `saved` is the stored string
(`none` when the key is absent); `parse` models the platform `JSON.parse`,
whose exception (`Except.error`) propagates out of the initializer because
there is no `try`/`catch` around it. -/
def initialState (parse : String → Except Unit ProjectState)
    (saved : Option String) : Except Unit ProjectState :=
  match saved with
  | none => .ok defaultProject
  | some str => if str = "" then .ok defaultProject else parse str

/-- Models the platform `JSON.parse` applied to a stored value that is not
valid JSON (for example the literal text `not json`): it throws a
`SyntaxError`, here an `Except.error`. -/
def failingParse : String → Except Unit ProjectState :=
  fun _ => .error ()

/-! ## The structural invariant of §8 / claim C1 -/

/-- Exactly one hub carries the home slug `"index"`. -/
def uniqueIndexSlug (hubs : List HubPage) : Prop :=
  hubs.countP (fun h => h.slug == "index") = 1

/-- The §8 invariant: one home slug, pairwise-distinct hub slugs, and no
dangling `Article.hubId`. -/
def wellFormed (s : ProjectState) : Prop :=
  uniqueIndexSlug s.hubs ∧ (s.hubs.map (fun h => h.slug)).Nodup ∧
    ∀ a ∈ s.articles, ∃ h ∈ s.hubs, a.hubId = h.id

/-! ## Specification-derived definition for claim C4

The spec (and claim C4) says the root index file is located by "checking a
fixed ordered list of candidate paths … where the first candidate in that
priority order present in the tree wins regardless of the tree's own
ordering".  This definition follows those words, to be compared against
`findIndexNode` (which follows the source). -/

/-- Claim C4's candidate search as worded by the spec: the first candidate
path in `possibleIndexPaths` order that occurs anywhere in the tree. -/
def specPriorityIndexPath (tree : List TreeNode) : Option String :=
  possibleIndexPaths.find? (fun p => tree.any (fun n => n.path == p))

/-! ## Concrete inputs used by counterexamples and witnesses -/

/-- A sample brand identity (generation-service response). -/
def idSample : Identity :=
  { siteName := "Acme", slug := "acme", mission := "missionX",
    brandDescription := "desc", themeColor := "#fff" }

/-- A deterministic id supply standing in for `Math.random` draws. -/
def sampleIdGen : Nat → String :=
  fun k => "id" ++ toString k

/-- The spec §8 classification-example tree. -/
def treeClassify : List TreeNode :=
  [{ path := "index.html", type := "blob", url := "u0" },
   { path := "services/index.html", type := "blob", url := "u1" },
   { path := "services/consulting.html", type := "blob", url := "u2" },
   { path := "about.html", type := "blob", url := "u3" }]

/-- A tree whose `index/index.html` entry imports as a second hub with slug
`"index"`. -/
def treeIdxIdx : List TreeNode :=
  [{ path := "index.html", type := "blob", url := "u0" },
   { path := "index/index.html", type := "blob", url := "u1" }]

/-- A tree listing `docs/index.html` before the bare-root `index.html`. -/
def treeDocsFirst : List TreeNode :=
  [{ path := "docs/index.html", type := "blob", url := "u1" },
   { path := "index.html", type := "blob", url := "u2" }]

/-- A tree with no candidate index file at all. -/
def treeNoIndex : List TreeNode :=
  [{ path := "about.html", type := "blob", url := "u9" }]

/-- A retryable error: `fetch` throws a `TypeError` on network failure. -/
def netErr : GemError :=
  { name := "TypeError", message := "", status := none, code := none }

/-- A non-retryable service error (no network/rate-limit signature). -/
def fatalErr : GemError :=
  { name := "Error", message := "bad response", status := none,
    code := none }

/-- An operation failing with a retryable error on attempts 0 and 1, then
succeeding. -/
def opFlaky : Nat → Except GemError Nat :=
  fun j => if j < 2 then .error netErr else .ok 7

/-- An operation that always fails with a retryable error. -/
def opAlwaysFail : Nat → Except GemError Nat :=
  fun _ => .error netErr

/-- An operation failing immediately with a non-retryable error. -/
def opFatal : Nat → Except GemError Nat :=
  fun _ => .error fatalErr

/-- A stub hub as a strategy response would propose it (no markup yet). -/
def stubHub : HubPage :=
  { id := "s1", title := "Stub", slug := "about", description := "d",
    html := none }

/-- A hub list present before a Build run starts. -/
def oldHub : HubPage :=
  { id := "h1", title := "Old", slug := "index", description := "d",
    html := some "x" }

/-- A ready state holding one committed hub, as left by an earlier
workflow. -/
def preBuildState : ProjectState :=
  { defaultProject with hubs := [oldHub], status := .ready }

/-- A busy state: a Tune run is in flight. -/
def busyState : ProjectState :=
  { defaultProject with status := .tuning_design }

/-- An app state mid-import with an Identity already present. -/
def stImporting : AppState :=
  { proj :=
      { defaultProject with
        identity := some idSample
        status := .importing },
    abortCtrl := some false }

/-- Home hub with markup, used as tuning exemplar. -/
def homeHubT : HubPage :=
  { id := "home", title := "Home", slug := "index", description := "d",
    html := some "HOMEHTML" }

/-- A non-home hub with markup, a tuning target. -/
def secHubT : HubPage :=
  { id := "sec1", title := "Services", slug := "services",
    description := "d", html := some "SECHTML" }

/-- An article with markup, a tuning target. -/
def artT : Article :=
  { id := "art1", hubId := "sec1", title := "A", slug := "a",
    contentHtml := some "ARTHTML", createdAt := "t" }

/-- A ready state with a home hub, a section hub and one article. -/
def tuneState : ProjectState :=
  { defaultProject with
    identity := some idSample
    hubs := [homeHubT, secHubT]
    articles := [artT]
    status := .ready }

/-! # Theorems -/

/-! ### Basic lemmas about these primitives -/

theorem listIsPre_iff_append (p : List Char) :
    ∀ l, listIsPre p l = true ↔ ∃ t, l = p ++ t := by
  induction p with
  | nil =>
    intro l
    simp [listIsPre]
  | cons a as ih =>
    intro l
    cases l with
    | nil => simp [listIsPre]
    | cons b bs =>
      simp only [listIsPre, Bool.and_eq_true, decide_eq_true_eq, ih]
      constructor
      · rintro ⟨rfl, t, rfl⟩
        exact ⟨t, rfl⟩
      · rintro ⟨t, h⟩
        cases h
        exact ⟨rfl, t, rfl⟩

theorem listIsPre_drop (p l : List Char) (h : listIsPre p l = true) :
    l = p ++ l.drop p.length := by
  rcases (listIsPre_iff_append p l).1 h with ⟨t, rfl⟩
  simp

theorem splitCharAux_ne_nil (sep : Char) :
    ∀ (l acc : List Char), splitCharAux sep l acc ≠ [] := by
  intro l
  induction l with
  | nil => intro acc; simp [splitCharAux]
  | cons d ds ihd =>
    intro acc
    by_cases hd : d = sep
    · simp [splitCharAux, hd]
    · simp only [splitCharAux, if_neg hd]
      exact ihd _

theorem splitCharAux_join (sep : Char) :
    ∀ (cs acc : List Char),
      joinSep sep (splitCharAux sep cs acc) = acc.reverse ++ cs := by
  intro cs
  induction cs with
  | nil =>
    intro acc
    simp [splitCharAux, joinSep]
  | cons c cs ih =>
    intro acc
    by_cases hc : c = sep
    · simp only [splitCharAux, if_pos hc]
      rcases hS : splitCharAux sep cs [] with _ | ⟨x, xs⟩
      · exact absurd hS (splitCharAux_ne_nil sep cs [])
      · have hjoin := ih ([] : List Char)
        rw [hS] at hjoin
        simp only [List.reverse_nil, List.nil_append] at hjoin
        simp only [joinSep]
        rw [hjoin, hc]
    · simp only [splitCharAux, if_neg hc]
      have := ih (c :: acc)
      simpa using this

theorem jsSplit_inj (sep : Char) (a b : String)
    (h : jsSplit sep a = jsSplit sep b) : a = b := by
  have hid : (String.data ∘ fun l : List Char => ({ data := l } : String)) = id := rfl
  have hdata : splitCharAux sep a.data [] = splitCharAux sep b.data [] := by
    have hmap := congrArg (List.map String.data) h
    rw [jsSplit, jsSplit, List.map_map, List.map_map, hid, List.map_id,
      List.map_id] at hmap
    exact hmap
  have ha := splitCharAux_join sep a.data []
  have hb := splitCharAux_join sep b.data []
  simp only [List.reverse_nil, List.nil_append] at ha hb
  rw [hdata] at ha
  exact congrArg String.mk (ha.symm.trans hb)

/-- A list of length two is determined by its first two `getD` values. -/
theorem eq_pair_of_length_two {α : Type} (l : List α) (h2 : l.length = 2)
    (d x y : α) (hx : l.getD 0 d = x) (hy : l.getD 1 d = y) : l = [x, y] := by
  match l, h2 with
  | [a, b], _ =>
    simp only [List.getD] at hx hy
    simp_all

/-! ### Invocation-count lemmas for the retry loops -/

theorem retryLoop2_ok_after {α : Type} (op : Nat → Except GemError α)
    (v : α) :
    ∀ (k fuel i : Nat), k < fuel →
      (∀ j, j < k → ∃ e, op (i + j) = .error e ∧ isRetryable2 e = true) →
      op (i + k) = .ok v →
      retryLoop2 op fuel i = (.ok v, k + 1) := by
  intro k
  induction k with
  | zero =>
    intro fuel i hlt hfail hok
    match fuel, hlt with
    | f + 1, _ =>
      rw [Nat.add_zero] at hok
      simp [retryLoop2, hok]
  | succ k ih =>
    intro fuel i hlt hfail hok
    match fuel, hlt with
    | f + 1, hlt =>
      obtain ⟨e, he, hr⟩ := hfail 0 (Nat.succ_pos k)
      rw [Nat.add_zero] at he
      have hf : (f == 0) = false := by
        simp only [beq_eq_false_iff_ne, ne_eq]
        omega
      have hrec : retryLoop2 op f (i + 1) = (.ok v, k + 1) := by
        refine ih f (i + 1) (by omega) (fun j hj => ?_) ?_
        · obtain ⟨e2, he2, hr2⟩ := hfail (j + 1) (by omega)
          refine ⟨e2, ?_, hr2⟩
          rwa [show i + (j + 1) = i + 1 + j by omega] at he2
        · rwa [show i + (k + 1) = i + 1 + k by omega] at hok
      simp [retryLoop2, he, hr, hf, hrec]

theorem retryLoop2_all_fail {α : Type} (op : Nat → Except GemError α)
    (hfail : ∀ j, ∃ e, op j = .error e ∧ isRetryable2 e = true) :
    ∀ (fuel i : Nat), ∃ er, retryLoop2 op fuel i = (.error er, fuel) := by
  intro fuel
  induction fuel with
  | zero => intro i; exact ⟨.budgetExhausted, rfl⟩
  | succ f ih =>
    intro i
    obtain ⟨e, he, hr⟩ := hfail i
    by_cases hf : f = 0
    · subst hf
      refine ⟨rethrow2 e, ?_⟩
      simp [retryLoop2, he]
    · obtain ⟨er, her⟩ := ih (i + 1)
      refine ⟨er, ?_⟩
      simp [retryLoop2, he, hr, hf, her]

theorem retryLoop2_fatal {α : Type} (op : Nat → Except GemError α)
    (e : GemError) (i f : Nat) (he : op i = .error e)
    (hr : isRetryable2 e = false) :
    retryLoop2 op (f + 1) i = (.error (rethrow2 e), 1) := by
  simp [retryLoop2, he, hr]

theorem retryLoop1_ok_after {α : Type} (preAbort postAbort : Nat → Bool)
    (op : Nat → Except GemError α) (v : α)
    (hsig : ∀ j, preAbort j = false ∧ postAbort j = false) :
    ∀ (k fuel i : Nat), k < fuel →
      (∀ j, j < k → ∃ e, op (i + j) = .error e ∧ isRetryable1 e = true) →
      op (i + k) = .ok v →
      retryLoop1 preAbort postAbort op fuel i = (.ok v, k + 1) := by
  intro k
  induction k with
  | zero =>
    intro fuel i hlt hfail hok
    match fuel, hlt with
    | f + 1, _ =>
      rw [Nat.add_zero] at hok
      simp [retryLoop1, hok, (hsig i).1]
  | succ k ih =>
    intro fuel i hlt hfail hok
    match fuel, hlt with
    | f + 1, hlt =>
      obtain ⟨e, he, hr⟩ := hfail 0 (Nat.succ_pos k)
      rw [Nat.add_zero] at he
      have hf : (f == 0) = false := by
        simp only [beq_eq_false_iff_ne, ne_eq]
        omega
      have hrec : retryLoop1 preAbort postAbort op f (i + 1) = (.ok v, k + 1) := by
        refine ih f (i + 1) (by omega) (fun j hj => ?_) ?_
        · obtain ⟨e2, he2, hr2⟩ := hfail (j + 1) (by omega)
          refine ⟨e2, ?_, hr2⟩
          rwa [show i + (j + 1) = i + 1 + j by omega] at he2
        · rwa [show i + (k + 1) = i + 1 + k by omega] at hok
      simp [retryLoop1, he, hr, hf, hrec, (hsig i).1, (hsig i).2]

theorem retryLoop1_all_fail {α : Type} (preAbort postAbort : Nat → Bool)
    (op : Nat → Except GemError α)
    (hsig : ∀ j, preAbort j = false ∧ postAbort j = false)
    (hfail : ∀ j, ∃ e, op j = .error e ∧ isRetryable1 e = true) :
    ∀ (fuel i : Nat),
      ∃ er, retryLoop1 preAbort postAbort op fuel i = (.error er, fuel) := by
  intro fuel
  induction fuel with
  | zero => intro i; exact ⟨.budgetExhausted, rfl⟩
  | succ f ih =>
    intro i
    obtain ⟨e, he, hr⟩ := hfail i
    by_cases hf : f = 0
    · subst hf
      refine ⟨.fromOp e, ?_⟩
      simp [retryLoop1, he, (hsig i).1, (hsig i).2]
    · obtain ⟨er, her⟩ := ih (i + 1)
      refine ⟨er, ?_⟩
      simp [retryLoop1, he, hr, hf, her, (hsig i).1, (hsig i).2]

theorem retryLoop1_fatal {α : Type} (preAbort postAbort : Nat → Bool)
    (op : Nat → Except GemError α) (e : GemError) (i f : Nat)
    (hsig : ∀ j, preAbort j = false ∧ postAbort j = false)
    (he : op i = .error e) (hr : isRetryable1 e = false) :
    retryLoop1 preAbort postAbort op (f + 1) i = (.error (.fromOp e), 1) := by
  simp [retryLoop1, he, hr, (hsig i).1, (hsig i).2]

/-! ### Structural lemmas about the import loops -/

theorem secSlug_some_iff (rootDir : String) (n : TreeNode) (s : String) :
    secSlug rootDir n = some s ↔
      n.type = "blob" ∧ jsEndsWith n.path ".html" = true ∧
        underRoot rootDir n.path = true ∧
        relPathOf rootDir n.path ≠ "index.html" ∧
        jsSplit '/' (relPathOf rootDir n.path) = [s, "index.html"] := by
  unfold secSlug
  by_cases hcond : n.type = "blob" ∧ jsEndsWith n.path ".html" = true ∧
      underRoot rootDir n.path = true
  · obtain ⟨ht, he, hu⟩ := hcond
    rw [if_pos ⟨ht, he, hu⟩]
    by_cases hidx : relPathOf rootDir n.path = "index.html"
    · rw [if_pos hidx]
      constructor
      · intro hs; cases hs
      · rintro ⟨-, -, -, hne, -⟩
        exact absurd hidx hne
    · rw [if_neg hidx]
      by_cases hparts : (jsSplit '/' (relPathOf rootDir n.path)).length = 2 ∧
          (jsSplit '/' (relPathOf rootDir n.path)).getD 1 "" = "index.html"
      · rw [if_pos hparts]
        constructor
        · intro hs
          injection hs with hs
          exact ⟨ht, he, hu, hidx,
            eq_pair_of_length_two _ hparts.1 "" _ _ hs hparts.2⟩
        · rintro ⟨-, -, -, -, hsp⟩
          simp [hsp]
      · rw [if_neg hparts]
        constructor
        · intro hs; cases hs
        · rintro ⟨-, -, -, -, hsp⟩
          rw [hsp] at hparts
          simp at hparts
  · rw [if_neg hcond]
    constructor
    · intro hs; cases hs
    · rintro ⟨ht, he, hu, -, -⟩
      exact absurd ⟨ht, he, hu⟩ hcond

theorem secSlug_path_inj (rootDir : String) (n1 n2 : TreeNode) (s : String)
    (h1 : secSlug rootDir n1 = some s) (h2 : secSlug rootDir n2 = some s) :
    n1.path = n2.path := by
  rw [secSlug_some_iff] at h1 h2
  obtain ⟨-, -, hu1, -, hsp1⟩ := h1
  obtain ⟨-, -, hu2, -, hsp2⟩ := h2
  have hrel : relPathOf rootDir n1.path = relPathOf rootDir n2.path :=
    jsSplit_inj '/' _ _ (hsp1.trans hsp2.symm)
  by_cases hrd : rootDir = ""
  · simpa [relPathOf, hrd] using hrel
  · have hbeq : (rootDir == "") = false := by
      simp [hrd]
    have hp1 : listIsPre (rootDir ++ "/").data n1.path.data = true := by
      simpa [underRoot, hbeq, jsStartsWith] using hu1
    have hp2 : listIsPre (rootDir ++ "/").data n2.path.data = true := by
      simpa [underRoot, hbeq, jsStartsWith] using hu2
    have hlen : (rootDir ++ "/").data.length = rootDir.data.length + 1 := by
      simp
    have hdrop : n1.path.data.drop (rootDir.data.length + 1) =
        n2.path.data.drop (rootDir.data.length + 1) := by
      have := hrel
      simp only [relPathOf, if_neg hrd, jsSubstringFrom] at this
      exact congrArg String.data this
    have hd1 := listIsPre_drop _ _ hp1
    have hd2 := listIsPre_drop _ _ hp2
    rw [hlen] at hd1 hd2
    have : n1.path.data = n2.path.data := by
      rw [hd1, hd2, hdrop]
    exact congrArg String.mk this

/-- With pairwise-distinct tree paths, distinct section entries yield
distinct slugs. -/
theorem nodup_filterMap_secSlug (rootDir : String) :
    ∀ (tree : List TreeNode), (tree.map (fun n => n.path)).Nodup →
      (tree.filterMap (secSlug rootDir)).Nodup := by
  intro tree
  induction tree with
  | nil => intro _; simp
  | cons n rest ih =>
    intro hnd
    rw [List.map_cons, List.nodup_cons] at hnd
    obtain ⟨hnotin, hrest⟩ := hnd
    rw [List.filterMap_cons]
    cases hsec : secSlug rootDir n with
    | none => exact ih hrest
    | some s =>
      rw [List.nodup_cons]
      refine ⟨?_, ih hrest⟩
      intro hmem
      rw [List.mem_filterMap] at hmem
      obtain ⟨m, hm, hms⟩ := hmem
      have : n.path ∈ rest.map (fun x => x.path) := by
        rw [secSlug_path_inj rootDir n m s hsec hms]
        exact List.mem_map_of_mem _ hm
      exact hnotin this

/-- The slugs produced by the first import loop are exactly the
`secSlug`-classified slugs of the tree, in tree order. -/
theorem hubLoop_slugs (fetch : String → String) (idGen : Nat → String)
    (rootDir : String) :
    ∀ (tree : List TreeNode) (k : Nat),
      ((hubLoop fetch idGen rootDir tree k).1).map (fun h => h.slug) =
        tree.filterMap (secSlug rootDir) := by
  intro tree
  induction tree with
  | nil => intro k; simp [hubLoop]
  | cons n rest ih =>
    intro k
    rw [List.filterMap_cons]
    cases hsec : secSlug rootDir n with
    | none =>
      simp only [hubLoop, hsec]
      exact ih k
    | some s =>
      simp only [hubLoop, hsec, List.map_cons]
      rw [ih (k + 1)]

/-- Every article produced by the second import loop references the id of
one of the hubs it was given. -/
theorem articleLoop_mem (hubs : List HubPage) (fetch : String → String)
    (idGen : Nat → String) (now rootDir : String) :
    ∀ (tree : List TreeNode) (k : Nat) (a : Article),
      a ∈ (articleLoop hubs fetch idGen now rootDir tree k).1 →
      ∃ h ∈ hubs, a.hubId = h.id := by
  intro tree
  induction tree with
  | nil =>
    intro k a ha
    simp [articleLoop] at ha
  | cons n rest ih =>
    intro k a ha
    cases hseg : artSeg rootDir n with
    | none =>
      simp only [articleLoop, hseg] at ha
      exact ih k a ha
    | some seg =>
      cases hfind : hubs.find? (fun h => h.slug == seg.1) with
      | none =>
        simp only [articleLoop, hseg, hfind] at ha
        exact ih k a ha
      | some parentHub =>
        simp only [articleLoop, hseg, hfind, List.mem_cons] at ha
        rcases ha with rfl | ha
        · exact ⟨parentHub, List.mem_of_find?_eq_some hfind, rfl⟩
        · exact ih (k + 1) a ha

/-- Markup generation preserves the stub hubs' slugs. -/
theorem mkHtmlHubs_slugs (htmlFor : HubPage → Except GemError String) :
    ∀ (stubs u : List HubPage), mkHtmlHubs htmlFor stubs = .ok u →
      u.map (fun h => h.slug) = stubs.map (fun h => h.slug) := by
  intro stubs
  induction stubs with
  | nil =>
    intro u hu
    simp only [mkHtmlHubs] at hu
    injection hu with hu
    rw [← hu]
  | cons h t ih =>
    intro u hu
    simp only [mkHtmlHubs] at hu
    cases hh : htmlFor h with
    | error e => rw [hh] at hu; cases hu
    | ok html =>
      rw [hh] at hu
      cases ht : mkHtmlHubs htmlFor t with
      | error e => rw [ht] at hu; cases hu
      | ok rest =>
        rw [ht] at hu
        injection hu with hu
        rw [← hu, List.map_cons, List.map_cons, ih rest ht]

/-- `wellFormed` only depends on the hub slug list, the hub id list and the
article `hubId` list. -/
theorem wellFormed_transfer (s s2 : ProjectState)
    (hslug : s2.hubs.map (fun h => h.slug) = s.hubs.map (fun h => h.slug))
    (hid : s2.hubs.map (fun h => h.id) = s.hubs.map (fun h => h.id))
    (hart : s2.articles.map (fun a => a.hubId) =
      s.articles.map (fun a => a.hubId))
    (hwf : wellFormed s) : wellFormed s2 := by
  obtain ⟨hone, hnd, href⟩ := hwf
  refine ⟨?_, ?_, ?_⟩
  · unfold uniqueIndexSlug at hone ⊢
    have e2 : s2.hubs.countP (fun h => h.slug == "index") =
        (s2.hubs.map (fun h => h.slug)).countP (fun x => x == "index") := by
      rw [List.countP_map]
      rfl
    have e1 : s.hubs.countP (fun h => h.slug == "index") =
        (s.hubs.map (fun h => h.slug)).countP (fun x => x == "index") := by
      rw [List.countP_map]
      rfl
    rw [e2, hslug, ← e1]
    exact hone
  · rw [hslug]
    exact hnd
  · intro a ha
    have hmem : a.hubId ∈ s.articles.map (fun a => a.hubId) := by
      rw [← hart]
      exact List.mem_map_of_mem _ ha
    obtain ⟨a0, ha0, hida⟩ := List.mem_map.1 hmem
    obtain ⟨h0, hh0, hidh⟩ := href a0 ha0
    have hmem2 : h0.id ∈ s2.hubs.map (fun h => h.id) := by
      rw [hid]
      exact List.mem_map_of_mem _ hh0
    obtain ⟨h2, hh2, hidh2⟩ := List.mem_map.1 hmem2
    exact ⟨h2, hh2, by rw [← hida, hidh, hidh2]⟩

theorem map_map_eq_of {α β : Type} (l : List α) (f : α → α) (g : α → β)
    (h : ∀ a, g (f a) = g a) : (l.map f).map g = l.map g := by
  induction l with
  | nil => rfl
  | cons x xs ih => simp only [List.map_cons, h, ih]

/-! ### Per-workflow establishment/preservation of the invariant -/

/-- A completed Import yields a well-formed state, provided the tree's
paths are pairwise distinct and no entry classifies as a section with slug
`"index"` (i.e. no `index/index.html` relative to the derived root
directory). -/
theorem importModel_completed_wellFormed (importRepo importToken
    defaultBranch : String) (tree : List TreeNode) (fetch : String → String)
    (identityOf : String → Identity) (idGen : Nat → String) (now : String)
    (s : ProjectState)
    (hout : (importModel importRepo importToken defaultBranch tree fetch
      identityOf idGen now s).outcome = .completed)
    (hnd : (tree.map (fun n => n.path)).Nodup)
    (hnoidx : ∀ n ∈ tree, secSlug (rootDirOf tree) n ≠ some "index") :
    wellFormed (importModel importRepo importToken defaultBranch tree fetch
      identityOf idGen now s).final := by
  unfold importModel at hout ⊢
  by_cases hrej : jsTrim importRepo = "" ∨ jsTrim importToken = ""
  · rw [if_pos hrej] at hout
    simp at hout
  · rw [if_neg hrej] at hout ⊢
    cases hidx : findIndexNode tree with
    | none =>
      rw [hidx] at hout
      simp at hout
    | some indexNode =>
      have hrdeq : rootDirOf tree = rootDirOfIndexPath indexNode.path := by
        simp [rootDirOf, hidx]
      rw [hrdeq] at hnoidx
      have hsecs := hubLoop_slugs fetch idGen
        (rootDirOfIndexPath indexNode.path) tree 0
      have hnotidx : "index" ∉
          tree.filterMap (secSlug (rootDirOfIndexPath indexNode.path)) := by
        intro hmem
        rw [List.mem_filterMap] at hmem
        obtain ⟨n, hn, hsec⟩ := hmem
        exact hnoidx n hn hsec
      dsimp only
      unfold wellFormed
      dsimp only
      refine ⟨?_, ?_, ?_⟩
      · unfold uniqueIndexSlug
        rw [List.countP_cons]
        have hz : ((hubLoop fetch idGen (rootDirOfIndexPath indexNode.path)
            tree 0).1).countP (fun h => h.slug == "index") = 0 := by
          rw [List.countP_eq_zero]
          intro h hh
          have hmem : h.slug ∈ tree.filterMap
              (secSlug (rootDirOfIndexPath indexNode.path)) := by
            rw [← hsecs]
            exact List.mem_map_of_mem _ hh
          simp only [beq_iff_eq]
          intro hcontra
          rw [hcontra] at hmem
          exact hnotidx hmem
        rw [hz]
        simp [importHomeHub]
      · rw [List.map_cons, List.nodup_cons]
        constructor
        · have : (importHomeHub (fetch indexNode.url)).slug = "index" := rfl
          rw [this, hsecs]
          exact hnotidx
        · rw [hsecs]
          exact nodup_filterMap_secSlug _ tree hnd
      · intro a ha
        exact articleLoop_mem _ fetch idGen now _ tree _ a ha

/-- A successfully completed Build yields a well-formed state, provided the
strategy's stub slugs are pairwise distinct and none is `"index"`, and the
pre-Build state had no articles (Build keeps the previous articles while
replacing every hub id). -/
theorem buildModel_ok_wellFormed (s : ProjectState) (idt : Identity)
    (stubs : List HubPage) (rationale : String)
    (htmlFor : HubPage → Except GemError String)
    (indexHtmlRes : Except GemError String)
    (hfail : (buildModel s (.ok idt) (.ok (stubs, rationale)) htmlFor
      indexHtmlRes).failed = false)
    (hnd : (stubs.map (fun h => h.slug)).Nodup)
    (hnoidx : "index" ∉ stubs.map (fun h => h.slug))
    (hart : s.articles = []) :
    wellFormed (buildModel s (.ok idt) (.ok (stubs, rationale)) htmlFor
      indexHtmlRes).final := by
  unfold buildModel at hfail ⊢
  dsimp only at hfail ⊢
  cases hmk : mkHtmlHubs htmlFor stubs with
  | error e =>
    rw [hmk] at hfail
    simp at hfail
  | ok u =>
    rw [hmk] at hfail
    cases hih : indexHtmlRes with
    | error e =>
      rw [hih] at hfail
      simp at hfail
    | ok indexHtml =>
      have huslugs := mkHtmlHubs_slugs htmlFor stubs u hmk
      dsimp only
      unfold wellFormed
      dsimp only
      refine ⟨?_, ?_, ?_⟩
      · unfold uniqueIndexSlug
        rw [List.countP_cons]
        have hz : u.countP (fun h => h.slug == "index") = 0 := by
          rw [List.countP_eq_zero]
          intro h hh
          have hmem : h.slug ∈ stubs.map (fun h => h.slug) := by
            rw [← huslugs]
            exact List.mem_map_of_mem _ hh
          simp only [beq_iff_eq]
          intro hcontra
          rw [hcontra] at hmem
          exact hnoidx hmem
        rw [hz]
        simp [buildHomeHub]
      · rw [List.map_cons, List.nodup_cons]
        constructor
        · have : (buildHomeHub indexHtml).slug = "index" := rfl
          rw [this, huslugs]
          exact hnoidx
        · rw [huslugs]
          exact hnd
      · intro a ha
        have harts : (buildCommit3 s idt stubs rationale).articles =
            s.articles := rfl
        rw [harts, hart] at ha
        cases ha

/-- Tune preserves the invariant: it only rewrites one page's markup. -/
theorem tuneModel_wellFormed (s : ProjectState) (targetId instruction : String)
    (tuneRes : String → Option String → Except GemError String)
    (hwf : wellFormed s) :
    wellFormed (tuneModel s targetId instruction tuneRes).final := by
  unfold tuneModel
  split_ifs with h1 h2
  · exact hwf
  · exact hwf
  · dsimp only
    split
    · exact hwf
    · split
      · exact hwf
      · split
        · next th heq =>
          refine wellFormed_transfer s _ ?_ ?_ ?_ hwf
          · exact map_map_eq_of _ _ _ (fun h2 => by
              by_cases hcase : h2.id = th.id <;> simp [hcase])
          · exact map_map_eq_of _ _ _ (fun h2 => by
              by_cases hcase : h2.id = th.id <;> simp [hcase])
          · rfl
        · split
          · next ta heq =>
            refine wellFormed_transfer s _ ?_ ?_ ?_ hwf
            · rfl
            · rfl
            · exact map_map_eq_of _ _ _ (fun a2 => by
                by_cases hcase : a2.id = ta.id <;> simp [hcase])
          · exact hwf

/-- Publish never touches hubs, articles or identity, so it preserves the
invariant. -/
theorem publishModel_wellFormed (s : ProjectState)
    (createRes : Except GemError Unit) (readmeRes : Except GemError String)
    (pushRes enableRes : Except GemError Unit) (hwf : wellFormed s) :
    wellFormed (publishModel s createRes readmeRes pushRes enableRes).final := by
  unfold publishModel
  split_ifs with h1
  · exact hwf
  · cases createRes with
    | error e => exact hwf
    | ok u =>
      cases readmeRes with
      | error e => exact hwf
      | ok rm =>
        cases pushRes with
        | error e => exact hwf
        | ok u2 =>
          cases enableRes with
          | error e => exact hwf
          | ok u3 => exact hwf

/-! # Claims -/

/-- Claim C1, counterexample.  The claim states that after every completed
workflow exactly one hub has slug `"index"`.  Importing the perfectly
ordinary tree `["index.html", "index/index.html"]` from the default state
completes (status `ready`) yet yields TWO hubs with slug `"index"`: the
synthetic home hub, and the section derived from `index/index.html`
(whose slug is its first path segment, `"index"`). -/
theorem C1_counterexample :
    (importModel "r" "t" "main" treeIdxIdx (fun _ => "") (fun _ => idSample)
      sampleIdGen "2024" defaultProject).outcome = .completed ∧
    (importModel "r" "t" "main" treeIdxIdx (fun _ => "") (fun _ => idSample)
      sampleIdGen "2024" defaultProject).final.status = .ready ∧
    ¬ uniqueIndexSlug (importModel "r" "t" "main" treeIdxIdx (fun _ => "")
      (fun _ => idSample) sampleIdGen "2024" defaultProject).final.hubs := by
  refine ⟨by decide, by decide, ?_⟩
  unfold uniqueIndexSlug
  decide

/-- Claim C1, amended.  After a completed workflow the state satisfies the
invariant (exactly one hub with slug `"index"`, pairwise-distinct hub
slugs, no dangling article `hubId`) PROVIDED: for Import, the tree's paths
are pairwise distinct and no entry classifies as a section with slug
`"index"`; for Build, the strategy's stub slugs are pairwise distinct,
none of them is `"index"`, and the pre-Build state holds no articles
(Build keeps prior articles while discarding every prior hub id); Tune and
Publish preserve the invariant unconditionally. -/
theorem C1_amended_wellFormed :
    (∀ (importRepo importToken defaultBranch : String)
        (tree : List TreeNode) (fetch : String → String)
        (identityOf : String → Identity) (idGen : Nat → String)
        (now : String) (s : ProjectState),
        (importModel importRepo importToken defaultBranch tree fetch
          identityOf idGen now s).outcome = .completed →
        (tree.map (fun n => n.path)).Nodup →
        (∀ n ∈ tree, secSlug (rootDirOf tree) n ≠ some "index") →
        wellFormed (importModel importRepo importToken defaultBranch tree
          fetch identityOf idGen now s).final) ∧
    (∀ (s : ProjectState) (idt : Identity) (stubs : List HubPage)
        (rationale : String) (htmlFor : HubPage → Except GemError String)
        (indexHtmlRes : Except GemError String),
        (buildModel s (.ok idt) (.ok (stubs, rationale)) htmlFor
          indexHtmlRes).failed = false →
        (stubs.map (fun h => h.slug)).Nodup →
        "index" ∉ stubs.map (fun h => h.slug) →
        s.articles = [] →
        wellFormed (buildModel s (.ok idt) (.ok (stubs, rationale)) htmlFor
          indexHtmlRes).final) ∧
    (∀ (s : ProjectState) (targetId instruction : String)
        (tuneRes : String → Option String → Except GemError String),
        wellFormed s →
        wellFormed (tuneModel s targetId instruction tuneRes).final) ∧
    (∀ (s : ProjectState) (createRes : Except GemError Unit)
        (readmeRes : Except GemError String)
        (pushRes enableRes : Except GemError Unit),
        wellFormed s →
        wellFormed (publishModel s createRes readmeRes pushRes
          enableRes).final) :=
  ⟨importModel_completed_wellFormed, buildModel_ok_wellFormed,
    tuneModel_wellFormed, publishModel_wellFormed⟩

/-- Witness for the amended claim C1: the classification-example import
satisfies the invariant. -/
theorem C1_amended_wellFormed_witness :
    wellFormed (importModel "r" "t" "main" treeClassify (fun _ => "")
      (fun _ => idSample) sampleIdGen "2024" defaultProject).final :=
  C1_amended_wellFormed.1 "r" "t" "main" treeClassify (fun _ => "")
    (fun _ => idSample) sampleIdGen "2024" defaultProject
    (by decide) (by decide) (by decide)

/-- Claim C2, counterexample.  The claim states that when Build fails while
generating a section's markup, the hubs list is left exactly as it was
before the run.  From a ready state holding one hub, a Build whose strategy
succeeds with one stub and whose markup generation fails, ends with status
`idle` but with the hubs list replaced by the stub list. -/
theorem C2_counterexample :
    (buildModel preBuildState (.ok idSample) (.ok ([stubHub], "r"))
      (fun _ => .error fatalErr) (.ok "")).failed = true ∧
    (buildModel preBuildState (.ok idSample) (.ok ([stubHub], "r"))
      (fun _ => .error fatalErr) (.ok "")).final.status = .idle ∧
    (buildModel preBuildState (.ok idSample) (.ok ([stubHub], "r"))
      (fun _ => .error fatalErr) (.ok "")).final.hubs ≠
      preBuildState.hubs := by
  decide

/-- Claim C2, amended.  Build commits Identity after step 1 and the
strategy's STUB hub list after step 2, mid-workflow.  When page-markup
generation (any section, or the home page) fails, the failure is surfaced
and status reverts to `idle`, but the hubs list keeps the committed stubs
instead of the pre-Build list. -/
theorem C2_build_failure_commits_stub_hubs (s : ProjectState)
    (idt : Identity) (stubs : List HubPage) (rationale : String)
    (htmlFor : HubPage → Except GemError String)
    (indexHtmlRes : Except GemError String)
    (hpagefail : (∃ e, mkHtmlHubs htmlFor stubs = .error e) ∨
      ((∃ u, mkHtmlHubs htmlFor stubs = .ok u) ∧
        ∃ e, indexHtmlRes = .error e)) :
    buildModel s (.ok idt) (.ok (stubs, rationale)) htmlFor indexHtmlRes =
      { trace := [buildCommit1 s, buildCommit2 s idt,
          buildCommit3 s idt stubs rationale,
          { buildCommit3 s idt stubs rationale with status := Status.idle }],
        final := { buildCommit3 s idt stubs rationale with
          status := Status.idle },
        failed := true } ∧
    (buildModel s (.ok idt) (.ok (stubs, rationale)) htmlFor
      indexHtmlRes).final.hubs = stubs ∧
    (buildModel s (.ok idt) (.ok (stubs, rationale)) htmlFor
      indexHtmlRes).final.status = Status.idle := by
  have hb : buildModel s (.ok idt) (.ok (stubs, rationale)) htmlFor
      indexHtmlRes =
      { trace := [buildCommit1 s, buildCommit2 s idt,
          buildCommit3 s idt stubs rationale,
          { buildCommit3 s idt stubs rationale with status := Status.idle }],
        final := { buildCommit3 s idt stubs rationale with
          status := Status.idle },
        failed := true } := by
    rcases hpagefail with ⟨e, hmk⟩ | ⟨⟨u, hmk⟩, e, hih⟩
    · unfold buildModel
      dsimp only
      rw [hmk]
    · unfold buildModel
      dsimp only
      rw [hmk, hih]
  refine ⟨hb, ?_, ?_⟩
  · rw [hb]
    rfl
  · rw [hb]

/-- Claim C3.  For both `retryWithBackoff` variants (variant 1 with a
never-set cancellation token): `k < maxRetries` retryable failures followed
by a success return the success value after exactly `k + 1` invocations;
always-retryable failure exhausts exactly `maxRetries` invocations; a
non-retryable first failure propagates after exactly 1 invocation. -/
theorem C3_retry_policy (α : Type) (apiKey : String) (hkey : apiKey ≠ "") :
    (∀ (op : Nat → Except GemError α) (maxRetries k : Nat) (v : α),
        k < maxRetries →
        (∀ j, j < k → ∃ e, op j = .error e ∧ isRetryable2 e = true) →
        op k = .ok v →
        retryWithBackoff2 apiKey op maxRetries = (.ok v, k + 1)) ∧
    (∀ (op : Nat → Except GemError α) (maxRetries : Nat),
        (∀ j, ∃ e, op j = .error e ∧ isRetryable2 e = true) →
        ∃ er, retryWithBackoff2 apiKey op maxRetries =
          (.error er, maxRetries)) ∧
    (∀ (op : Nat → Except GemError α) (maxRetries : Nat) (e : GemError),
        op 0 = .error e → isRetryable2 e = false → 1 ≤ maxRetries →
        retryWithBackoff2 apiKey op maxRetries = (.error (rethrow2 e), 1)) ∧
    (∀ (preAbort postAbort : Nat → Bool) (op : Nat → Except GemError α)
        (maxRetries k : Nat) (v : α),
        (∀ j, preAbort j = false ∧ postAbort j = false) →
        k < maxRetries →
        (∀ j, j < k → ∃ e, op j = .error e ∧ isRetryable1 e = true) →
        op k = .ok v →
        retryWithBackoff1 apiKey preAbort postAbort op maxRetries =
          (.ok v, k + 1)) ∧
    (∀ (preAbort postAbort : Nat → Bool) (op : Nat → Except GemError α)
        (maxRetries : Nat),
        (∀ j, preAbort j = false ∧ postAbort j = false) →
        (∀ j, ∃ e, op j = .error e ∧ isRetryable1 e = true) →
        ∃ er, retryWithBackoff1 apiKey preAbort postAbort op maxRetries =
          (.error er, maxRetries)) ∧
    (∀ (preAbort postAbort : Nat → Bool) (op : Nat → Except GemError α)
        (maxRetries : Nat) (e : GemError),
        (∀ j, preAbort j = false ∧ postAbort j = false) →
        op 0 = .error e → isRetryable1 e = false → 1 ≤ maxRetries →
        retryWithBackoff1 apiKey preAbort postAbort op maxRetries =
          (.error (.fromOp e), 1)) := by
  refine ⟨?_, ?_, ?_, ?_, ?_, ?_⟩
  · intro op maxR k v hk hfail hok
    unfold retryWithBackoff2
    rw [if_neg hkey]
    refine retryLoop2_ok_after op v k maxR 0 hk ?_ ?_
    · intro j hj
      obtain ⟨e, he, hr⟩ := hfail j hj
      exact ⟨e, by rwa [Nat.zero_add], hr⟩
    · rwa [Nat.zero_add]
  · intro op maxR hfail
    unfold retryWithBackoff2
    rw [if_neg hkey]
    exact retryLoop2_all_fail op hfail maxR 0
  · intro op maxR e he hr hm
    unfold retryWithBackoff2
    rw [if_neg hkey]
    obtain ⟨m, rfl⟩ : ∃ m, maxR = m + 1 := ⟨maxR - 1, by omega⟩
    exact retryLoop2_fatal op e 0 m he hr
  · intro pa pb op maxR k v hsig hk hfail hok
    unfold retryWithBackoff1
    rw [if_neg hkey]
    refine retryLoop1_ok_after pa pb op v hsig k maxR 0 hk ?_ ?_
    · intro j hj
      obtain ⟨e, he, hr⟩ := hfail j hj
      exact ⟨e, by rwa [Nat.zero_add], hr⟩
    · rwa [Nat.zero_add]
  · intro pa pb op maxR hsig hfail
    unfold retryWithBackoff1
    rw [if_neg hkey]
    exact retryLoop1_all_fail pa pb op hsig hfail maxR 0
  · intro pa pb op maxR e hsig he hr hm
    unfold retryWithBackoff1
    rw [if_neg hkey]
    obtain ⟨m, rfl⟩ : ∃ m, maxR = m + 1 := ⟨maxR - 1, by omega⟩
    exact retryLoop1_fatal pa pb op e 0 m hsig he hr

/-- Witness for claim C3 at concrete operations and budget 5. -/
theorem C3_retry_policy_witness :
    retryWithBackoff2 "key" opFlaky 5 = (.ok 7, 3) ∧
    (∃ er, retryWithBackoff2 "key" opAlwaysFail 5 = (.error er, 5)) ∧
    retryWithBackoff2 "key" opFatal 5 = (.error (rethrow2 fatalErr), 1) ∧
    retryWithBackoff1 "key" (fun _ => false) (fun _ => false) opFlaky 5 =
      (.ok 7, 3) := by
  have h := C3_retry_policy Nat "key" (by decide)
  refine ⟨?_, ?_, ?_, ?_⟩
  · refine h.1 opFlaky 5 2 7 (by decide) ?_ rfl
    intro j hj
    refine ⟨netErr, ?_, by decide⟩
    match j, hj with
    | 0, _ => rfl
    | 1, _ => rfl
  · exact h.2.1 opAlwaysFail 5 (fun j => ⟨netErr, rfl, by decide⟩)
  · exact h.2.2.1 opFatal 5 fatalErr rfl (by decide) (by decide)
  · refine h.2.2.2.1 (fun _ => false) (fun _ => false) opFlaky 5 2 7
      (fun j => ⟨rfl, rfl⟩) (by decide) ?_ rfl
    intro j hj
    refine ⟨netErr, ?_, by decide⟩
    match j, hj with
    | 0, _ => rfl
    | 1, _ => rfl

/-- Claim C4, counterexample.  The claim says the first candidate in the
fixed PRIORITY order present in the tree wins regardless of tree order.
The code (`tree.find(...)`) takes the first node in TREE order whose path
is any candidate: on a tree listing `docs/index.html` before `index.html`,
the code selects `docs/index.html` (and derives root directory `"docs"`),
while the claim demands the bare-root `index.html`. -/
theorem C4_counterexample :
    (findIndexNode treeDocsFirst).map (fun n => n.path) =
      some "docs/index.html" ∧
    specPriorityIndexPath treeDocsFirst = some "index.html" ∧
    (findIndexNode treeDocsFirst).map (fun n => n.path) ≠
      specPriorityIndexPath treeDocsFirst ∧
    (importModel "r" "t" "main" treeDocsFirst (fun _ => "")
      (fun _ => idSample) sampleIdGen "2024"
      defaultProject).final.githubConfig.path = "docs" := by
  decide

/-- First-match characterization of `List.find?`. -/
theorem find?_first {α : Type} (p : α → Bool) :
    ∀ (l : List α) (a : α), l.find? p = some a →
      p a = true ∧ ∃ t1 t2, l = t1 ++ a :: t2 ∧ ∀ m ∈ t1, p m = false := by
  intro l
  induction l with
  | nil =>
    intro a h
    cases h
  | cons x xs ih =>
    intro a h
    cases hx : p x with
    | true =>
      rw [List.find?_cons_of_pos _ hx] at h
      injection h with h
      subst h
      exact ⟨hx, [], xs, rfl, by simp⟩
    | false =>
      rw [List.find?_cons_of_neg _ (by simp [hx])] at h
      obtain ⟨hpa, t1, t2, heq, hall⟩ := ih a h
      refine ⟨hpa, x :: t1, t2, by rw [heq]; rfl, ?_⟩
      intro m hm
      rcases List.mem_cons.1 hm with rfl | hm
      · exact hx
      · exact hall m hm

/-- Claim C4, amended.  The selected index node is the first entry in TREE
order whose path is among the fixed candidates (every earlier tree entry
matches no candidate); when no tree entry matches any candidate, Import
fails after exactly the two preceding storage calls — the validation error
is thrown outside RetryPolicy and the run makes no further call — and
status reverts to `idle`. -/
theorem C4_index_search :
    (∀ (tree : List TreeNode) (n : TreeNode),
        findIndexNode tree = some n →
        possibleIndexPaths.contains n.path = true ∧
        ∃ t1 t2, tree = t1 ++ n :: t2 ∧
          ∀ m ∈ t1, possibleIndexPaths.contains m.path = false) ∧
    (∀ (importRepo importToken defaultBranch : String)
        (tree : List TreeNode) (fetch : String → String)
        (identityOf : String → Identity) (idGen : Nat → String)
        (now : String) (s : ProjectState),
        jsTrim importRepo ≠ "" → jsTrim importToken ≠ "" →
        (∀ n ∈ tree, possibleIndexPaths.contains n.path = false) →
        importModel importRepo importToken defaultBranch tree fetch
          identityOf idGen now s =
          { calls := [.fetchRepoDetails, .fetchRepoStructure],
            final := { s with status := .idle },
            outcome := .noIndexError }) := by
  constructor
  · intro tree n h
    exact find?_first _ tree n h
  · intro importRepo importToken defaultBranch tree fetch identityOf idGen
      now s hrepo htok hnone
    have hfind : findIndexNode tree = none := by
      unfold findIndexNode
      rw [List.find?_eq_none]
      intro n hn
      rw [hnone n hn]
      simp
    unfold importModel
    rw [if_neg (not_or.mpr ⟨hrepo, htok⟩), hfind]

/-- Witness for the amended claim C4: the first tree entry with a candidate
path wins, and a candidate-free tree makes Import fail with the validation
error. -/
theorem C4_index_search_witness :
    (possibleIndexPaths.contains "docs/index.html" = true ∧
      ∃ t1 t2, treeDocsFirst =
        t1 ++ ({ path := "docs/index.html", type := "blob", url := "u1" } :
          TreeNode) :: t2 ∧
        ∀ m ∈ t1, possibleIndexPaths.contains m.path = false) ∧
    importModel "r" "t" "main" treeNoIndex (fun _ => "") (fun _ => idSample)
      sampleIdGen "2024" defaultProject =
      { calls := [.fetchRepoDetails, .fetchRepoStructure],
        final := { defaultProject with status := .idle },
        outcome := .noIndexError } := by
  constructor
  · exact C4_index_search.1 treeDocsFirst
      { path := "docs/index.html", type := "blob", url := "u1" } (by decide)
  · exact C4_index_search.2 "r" "t" "main" treeNoIndex (fun _ => "")
      (fun _ => idSample) sampleIdGen "2024" defaultProject (by decide)
      (by decide) (by decide)

/-- Claim C5.  Importing the classification-example tree
`["index.html", "services/index.html", "services/consulting.html",
"about.html"]` (root prefix `""`) yields exactly the home hub (slug
`"index"`), one section hub with slug `"services"`, and one article with
slug `"consulting"` whose `hubId` is the services hub's id (`"id0"`);
`about.html` — a depth-1 non-index file — yields neither hub nor
article. -/
theorem C5_import_classification :
    (importModel "r" "t" "main" treeClassify (fun _ => "") (fun _ => idSample)
      sampleIdGen "2024" defaultProject).outcome = .completed ∧
    (importModel "r" "t" "main" treeClassify (fun _ => "") (fun _ => idSample)
      sampleIdGen "2024" defaultProject).final.hubs =
      [importHomeHub "",
       { id := "id0", title := "services", slug := "services",
         description := "Imported Hub", html := some "" }] ∧
    (importModel "r" "t" "main" treeClassify (fun _ => "") (fun _ => idSample)
      sampleIdGen "2024" defaultProject).final.articles =
      [{ id := "id1", hubId := "id0", title := "consulting",
         slug := "consulting", contentHtml := some "",
         createdAt := "2024" }] := by
  refine ⟨by decide, by decide, by decide⟩

/-- Claim C6, counterexample.  The claim says a stored value that fails to
parse as JSON yields the default project.  The `useState` initializer has
no `try`/`catch`: with the stored value `"not json"` (on which `JSON.parse`
throws), the exception propagates and the default is NOT produced. -/
theorem C6_counterexample :
    failingParse "not json" = .error () ∧
    initialState failingParse (some "not json") = .error () ∧
    initialState failingParse (some "not json") ≠ .ok defaultProject := by
  refine ⟨rfl, rfl, ?_⟩
  intro h
  simp [initialState, failingParse] at h

/-- Claim C6, amended.  Absence of the stored key (or a stored empty
string, which is falsy) yields the default empty project — opinion
prefilled, empty hubs and articles, status `idle`; a present non-empty
value is returned as parsed, so a parse failure propagates instead of
falling back to the defaults. -/
theorem C6_load_defaults :
    (∀ parse : String → Except Unit ProjectState,
        initialState parse none = .ok defaultProject) ∧
    (∀ parse : String → Except Unit ProjectState,
        initialState parse (some "") = .ok defaultProject) ∧
    (∀ (parse : String → Except Unit ProjectState) (str : String),
        str ≠ "" → initialState parse (some str) = parse str) ∧
    defaultProject.hubs = [] ∧ defaultProject.articles = [] ∧
    defaultProject.status = .idle ∧ defaultProject.opinion ≠ "" := by
  refine ⟨fun parse => rfl, fun parse => rfl, ?_, rfl, rfl, rfl, by decide⟩
  intro parse str hstr
  simp [initialState, hstr]

/-- Witness for the amended claim C6 at a concrete failing parse. -/
theorem C6_load_defaults_witness :
    initialState failingParse none = .ok defaultProject ∧
    initialState failingParse (some "not json") = failingParse "not json" :=
  ⟨C6_load_defaults.1 failingParse,
   C6_load_defaults.2.2.1 failingParse "not json" (by decide)⟩

/-- Claim C7, counterexample.  The claim says that on cancellation, status
reverts to `ready` when an Identity exists.  Cancelling mid-Import with an
Identity present sets status to `idle` unconditionally
(`handleCancelProcess` line 160). -/
theorem C7_counterexample :
    stImporting.proj.identity.isSome = true ∧
    (handleCancelProcessModel stImporting).1.proj.status = .idle ∧
    (handleCancelProcessModel stImporting).1.proj.status ≠
      (if stImporting.proj.identity.isSome then Status.ready
       else Status.idle) := by
  decide

/-- Claim C7, amended.  Cancellation aborts and clears the controller,
reverts status to `idle` unconditionally (even when an Identity exists),
surfaces only an informational interruption notice — never an error — and
leaves identity, hubs and articles untouched. -/
theorem C7_cancel_resets_to_idle :
    ∀ st : AppState,
      (handleCancelProcessModel st).1.proj.status = .idle ∧
      (handleCancelProcessModel st).1.abortCtrl = none ∧
      (handleCancelProcessModel st).2 = .info ∧
      (handleCancelProcessModel st).1.proj.hubs = st.proj.hubs ∧
      (handleCancelProcessModel st).1.proj.articles = st.proj.articles ∧
      (handleCancelProcessModel st).1.proj.identity = st.proj.identity :=
  fun _ => ⟨rfl, rfl, rfl, rfl, rfl, rfl⟩

/-- Claim C8, counterexample.  The claim says a start request issued while
status is neither `idle` nor `ready` is rejected with no external calls
and no state change.  `handleImport` never checks `status`: invoked while
status is `tuning_design`, it dispatches calls, completes, and mutates
the state. -/
theorem C8_counterexample :
    busyState.status ≠ .idle ∧ busyState.status ≠ .ready ∧
    (importModel "r" "t" "main" treeClassify (fun _ => "") (fun _ => idSample)
      sampleIdGen "2024" busyState).calls ≠ [] ∧
    (importModel "r" "t" "main" treeClassify (fun _ => "") (fun _ => idSample)
      sampleIdGen "2024" busyState).final ≠ busyState ∧
    (importModel "r" "t" "main" treeClassify (fun _ => "") (fun _ => idSample)
      sampleIdGen "2024" busyState).outcome = .completed := by
  decide

/-- Claim C8, amended.  The orchestration handlers reject a start request
only for missing inputs — Import for an empty (trimmed) repo or token,
Publish for an empty token or repo in the config — leaving the state
untouched with no external calls.  They never check `status`: a request
issued while busy proceeds exactly as from a stable state (busy-state
rejection exists only in the UI layer's disabled buttons and overlay). -/
theorem C8_start_requests :
    (∀ (importRepo importToken defaultBranch : String)
        (tree : List TreeNode) (fetch : String → String)
        (identityOf : String → Identity) (idGen : Nat → String)
        (now : String) (s : ProjectState),
        jsTrim importRepo = "" ∨ jsTrim importToken = "" →
        importModel importRepo importToken defaultBranch tree fetch
          identityOf idGen now s =
          { calls := [], final := s, outcome := .rejectedInput }) ∧
    (∀ (s : ProjectState) (createRes : Except GemError Unit)
        (readmeRes : Except GemError String)
        (pushRes enableRes : Except GemError Unit),
        s.githubConfig.token = "" ∨ s.githubConfig.repo = "" →
        publishModel s createRes readmeRes pushRes enableRes =
          { calls := [], final := s, failed := true }) ∧
    (∀ (importRepo importToken defaultBranch : String)
        (tree : List TreeNode) (fetch : String → String)
        (identityOf : String → Identity) (idGen : Nat → String)
        (now : String) (s : ProjectState) (st2 : Status),
        jsTrim importRepo ≠ "" → jsTrim importToken ≠ "" →
        importModel importRepo importToken defaultBranch tree fetch
          identityOf idGen now { s with status := st2 } =
          importModel importRepo importToken defaultBranch tree fetch
            identityOf idGen now s) ∧
    (∀ (s : ProjectState) (createRes : Except GemError Unit)
        (readmeRes : Except GemError String)
        (pushRes enableRes : Except GemError Unit) (st2 : Status),
        s.githubConfig.token ≠ "" → s.githubConfig.repo ≠ "" →
        publishModel { s with status := st2 } createRes readmeRes pushRes
          enableRes =
          publishModel s createRes readmeRes pushRes enableRes) := by
  refine ⟨?_, ?_, ?_, ?_⟩
  · intro importRepo importToken defaultBranch tree fetch identityOf idGen
      now s hrej
    unfold importModel
    rw [if_pos hrej]
  · intro s c r p e hrej
    unfold publishModel
    rw [if_pos hrej]
  · intro importRepo importToken defaultBranch tree fetch identityOf idGen
      now s st2 hrepo htok
    obtain ⟨o, sty, idn, hs, arts, g, a, ra, stat, cfg⟩ := s
    unfold importModel
    rw [if_neg (not_or.mpr ⟨hrepo, htok⟩)]
    rw [if_neg (not_or.mpr ⟨hrepo, htok⟩)]
  · intro s c r p e st2 htok hrepo
    obtain ⟨o, sty, idn, hs, arts, g, a, ra, stat, cfg⟩ := s
    dsimp only at htok hrepo
    unfold publishModel
    rw [if_neg (not_or.mpr ⟨htok, hrepo⟩)]
    rw [if_neg (not_or.mpr ⟨htok, hrepo⟩)]

/-- Witness for the amended claim C8: empty-repo Import rejects with no
calls, and Import behaves identically from a busy status. -/
theorem C8_start_requests_witness :
    importModel "" "t" "main" treeClassify (fun _ => "") (fun _ => idSample)
      sampleIdGen "2024" defaultProject =
      { calls := [], final := defaultProject, outcome := .rejectedInput } ∧
    importModel "r" "t" "main" treeClassify (fun _ => "") (fun _ => idSample)
      sampleIdGen "2024" { defaultProject with status := Status.importing } =
      importModel "r" "t" "main" treeClassify (fun _ => "")
        (fun _ => idSample) sampleIdGen "2024" defaultProject :=
  ⟨C8_start_requests.1 "" "t" "main" treeClassify (fun _ => "")
      (fun _ => idSample) sampleIdGen "2024" defaultProject (Or.inl rfl),
   C8_start_requests.2.2.1 "r" "t" "main" treeClassify (fun _ => "")
      (fun _ => idSample) sampleIdGen "2024" defaultProject Status.importing
      (by decide) (by decide)⟩

/-- Claim C9.  In the Tune workflow, the exemplar markup passed to the
tuning operation is the home page's current (pre-tuning) markup for every
non-home target — a hub whose slug is not `"index"`, or an article — and
no exemplar is passed when the target is the home page itself. -/
theorem C9_tune_reference (s : ProjectState) (targetId instruction : String)
    (tuneRes : String → Option String → Except GemError String)
    (hid : s.identity.isSome = true) (htid : targetId ≠ "")
    (hinstr : jsTrim instruction ≠ "") :
    (∀ th cur hp hh,
        s.hubs.find? (fun h => h.id == targetId) = some th →
        th.slug ≠ "index" → th.html = some cur → cur ≠ "" →
        s.hubs.find? (fun h => h.slug == "index") = some hp →
        hp.html = some hh →
        (tuneModel s targetId instruction tuneRes).call =
          some (cur, some hh, instruction)) ∧
    (∀ th cur,
        s.hubs.find? (fun h => h.id == targetId) = some th →
        th.slug = "index" → th.html = some cur → cur ≠ "" →
        (tuneModel s targetId instruction tuneRes).call =
          some (cur, none, instruction)) ∧
    (∀ ta cur hp hh,
        s.hubs.find? (fun h => h.id == targetId) = none →
        s.articles.find? (fun a => a.id == targetId) = some ta →
        ta.contentHtml = some cur → cur ≠ "" →
        s.hubs.find? (fun h => h.slug == "index") = some hp →
        hp.html = some hh →
        (tuneModel s targetId instruction tuneRes).call =
          some (cur, some hh, instruction)) := by
  obtain ⟨idv, hidv⟩ := Option.isSome_iff_exists.mp hid
  have hguard1 : ¬ (targetId = "" ∨ s.identity.isNone = true) := by
    rw [hidv]
    simp [htid]
  refine ⟨?_, ?_, ?_⟩
  · intro th cur hp hh hth hslug hhtml hcur hhp hhphtml
    unfold tuneModel
    rw [if_neg hguard1, if_neg hinstr]
    rw [hth, hhp]
    dsimp only [Option.bind]
    rw [hhtml, hhphtml]
    simp only [jsOrStr, if_neg hcur, strTruthy]
    have hb : (cur != "") = true := by simp [hcur]
    rw [hb]
    simp only [Bool.true_eq_false, if_false, if_neg hslug, Option.getD]
    cases tuneRes cur (some hh) <;> rfl
  · intro th cur hth hslug hhtml hcur
    unfold tuneModel
    rw [if_neg hguard1, if_neg hinstr]
    rw [hth]
    dsimp only [Option.bind]
    rw [hhtml]
    simp only [jsOrStr, if_neg hcur, strTruthy]
    have hb : (cur != "") = true := by simp [hcur]
    rw [hb]
    simp only [Bool.true_eq_false, if_false, if_pos hslug, Option.getD]
    cases tuneRes cur none <;> rfl
  · intro ta cur hp hh hthn hta hhtml hcur hhp hhphtml
    unfold tuneModel
    rw [if_neg hguard1, if_neg hinstr]
    rw [hthn, hta, hhp]
    dsimp only [Option.bind]
    rw [hhtml, hhphtml]
    simp only [jsOrStr, if_neg hcur, strTruthy]
    have hb : (cur != "") = true := by simp [hcur]
    rw [hb]
    simp only [Bool.true_eq_false, if_false, Option.getD]
    cases tuneRes cur (some hh) <;> rfl

/-- Witness for claim C9 on a concrete state: tuning the section hub and
the article passes the home page's markup as exemplar; tuning the home
page passes none. -/
theorem C9_tune_reference_witness :
    (tuneModel tuneState "sec1" "increase padding"
      (fun c _ => .ok c)).call =
      some ("SECHTML", some "HOMEHTML", "increase padding") ∧
    (tuneModel tuneState "home" "increase padding"
      (fun c _ => .ok c)).call =
      some ("HOMEHTML", none, "increase padding") ∧
    (tuneModel tuneState "art1" "increase padding"
      (fun c _ => .ok c)).call =
      some ("ARTHTML", some "HOMEHTML", "increase padding") := by
  refine ⟨?_, ?_, ?_⟩
  · exact (C9_tune_reference tuneState "sec1" "increase padding"
      (fun c _ => .ok c) (by decide) (by decide) (by decide)).1
      secHubT "SECHTML" homeHubT "HOMEHTML" (by decide) (by decide) rfl
      (by decide) (by decide) rfl
  · exact (C9_tune_reference tuneState "home" "increase padding"
      (fun c _ => .ok c) (by decide) (by decide) (by decide)).2.1
      homeHubT "HOMEHTML" (by decide) rfl rfl (by decide)
  · exact (C9_tune_reference tuneState "art1" "increase padding"
      (fun c _ => .ok c) (by decide) (by decide) (by decide)).2.2
      artT "ARTHTML" homeHubT "HOMEHTML" (by decide) (by decide) rfl
      (by decide) (by decide) rfl

/-- Claim C10.  With an empty configured API key, both retry wrapper
variants throw before any attempt: for every operation and every retry
budget the result is the key-missing error and the invocation count is
zero.  The key is empty whenever the environment variable is absent or
whitespace-only (it is trimmed at module load). -/
theorem C10_empty_api_key :
    (∀ (α : Type) (op : Nat → Except GemError α) (maxRetries : Nat),
        retryWithBackoff2 "" op maxRetries = (.error .apiKeyMissing, 0)) ∧
    (∀ (α : Type) (preAbort postAbort : Nat → Bool)
        (op : Nat → Except GemError α) (maxRetries : Nat),
        retryWithBackoff1 "" preAbort postAbort op maxRetries =
          (.error .apiKeyMissing, 0)) ∧
    mkApiKey none = "" ∧ mkApiKey (some "   ") = "" := by
  refine ⟨fun α op m => rfl, fun α pa pb op m => rfl, rfl, by decide⟩

/-- Witness for the amended claim C2 at a concrete failing Build. -/
theorem C2_build_failure_witness :
    (buildModel defaultProject (.ok idSample) (.ok ([stubHub], "r"))
      (fun _ => .error fatalErr) (.ok "")).final.hubs = [stubHub] ∧
    (buildModel defaultProject (.ok idSample) (.ok ([stubHub], "r"))
      (fun _ => .error fatalErr) (.ok "")).final.status = Status.idle :=
  ⟨(C2_build_failure_commits_stub_hubs defaultProject idSample [stubHub]
      "r" (fun _ => .error fatalErr) (.ok "")
      (Or.inl ⟨fatalErr, rfl⟩)).2.1,
   (C2_build_failure_commits_stub_hubs defaultProject idSample [stubHub]
      "r" (fun _ => .error fatalErr) (.ok "")
      (Or.inl ⟨fatalErr, rfl⟩)).2.2⟩

end MySiteGen
